import Mathlib

/-!
# Verification of `Game/Managers/SoloCombat.py`

Shallow embedding of the raid-combat module of the Discord bot game:
power-score calculation, tier-based monster selection, battle and raid
resolution, and death handling.

Modelling conventions:
* Python numbers are modelled by `ℚ` (exact arithmetic); integer-valued
  fields (player gold, levels, stats) by `ℕ`.
* Python dictionaries are association lists `List (String × β)`; direct
  indexing `d[k]` (which raises `KeyError` when `k` is absent) is
  `dictGet`, returning `Option β` with `none` for the raised error.
* Fallible computations return `Option`: `none` stands for a raised
  exception (`KeyError`, `ValueError`).
* Randomness is made explicit: each call site that consumes the shared
  random source takes the drawn value as a parameter (a "mindset" draw
  `m : ℚ`, the monster count `k`, the sampled index list, a per-slot
  drop decision).  The validity constraints of the corresponding draw
  (`m ∈ [0,10)`, `3 ≤ k ≤ min n 7`, distinct in-range indices) appear
  as hypotheses of the theorems.
* In-place mutation of the player is modelled by state passing: a
  function that mutates the player returns the updated `Player`.
-/

/-- Python `d[k]` on a dict modelled as an association list: the value at
the first matching key, `none` when the key is absent (a `KeyError`). -/
def dictGet {β : Type} : List (String × β) → String → Option β
  | [], _ => none
  | kv :: rest, k => if kv.1 = k then some kv.2 else dictGet rest k

/-- An equipment item: a record with an optional numeric `power` field
(the code reads it with `item.get('power', 0)`). -/
structure Item where
  power : Option ℚ
deriving DecidableEq

/-- `Game.Models.Player`, restricted to the fields `SoloCombat.py` reads
or writes: level, the stats dict, the equipment dict (slot name to
optional item), current/max HP, gold, experience, party membership. -/
structure Player where
  level : ℕ
  stats : List (String × ℕ)
  equipment : List (String × Option Item)
  current_hp : ℚ
  max_hp : ℚ
  gold : ℕ
  experience : ℚ
  current_party_id : Option String
deriving DecidableEq

/-- `Game.Models.Monster`, restricted to the fields `SoloCombat.py` uses. -/
structure Monster where
  monster_id : String
  name : String
  level : ℕ
  rarity : String
  monster_type : String
  hp : ℚ
  damage : ℚ
  defense : ℚ
  experience_reward : ℚ
  gold_reward : ℚ
  loot_table : List String
deriving DecidableEq

/-- A combatant passed to `CombatSystem.calculate_power_score`; the
`is_player` flag of the Python signature picks the branch, so the two
cases are the two constructors. -/
inductive Entity where
  | player (p : Player)
  | monster (m : Monster)
deriving DecidableEq

/-- The `rarity_multipliers` dict of the monster branch of
`calculate_power_score`. -/
def rarity_multipliers : List (String × ℚ) :=
  [("E", 1), ("D", 13/10), ("C", 16/10), ("B", 2), ("A", 5/2), ("S", 3)]

/-- The deterministic part of `CombatSystem.calculate_power_score`: the
`base_score` accumulated before the mindset draw.  The player branch
reads `entity.stats["strength"|"agility"|"vitality"]` by direct
indexing, so a missing key propagates as `none` (`KeyError`); the
equipment bonus sums `item.get('power', 0)` over non-empty slots.  The
monster branch is total and scales by `rarity_multipliers.get(rarity, 1.0)`. -/
def base_power_score : Entity → Option ℚ
  | .player p => do
      let s ← dictGet p.stats "strength"
      let a ← dictGet p.stats "agility"
      let v ← dictGet p.stats "vitality"
      let equipment_bonus : ℚ :=
        (p.equipment.map (fun kv =>
          match kv.2 with
          | some item => item.power.getD 0
          | none => 0)).sum
      pure ((s : ℚ) * (3/2) + (a : ℚ) * (6/5) + (v : ℚ) * 1
        + (p.level : ℚ) * 5 + equipment_bonus)
  | .monster m =>
      some (((m.level : ℚ) * 6 + m.damage * (13/10) + m.defense)
        * ((dictGet rarity_multipliers m.rarity).getD 1))

/-- `CombatSystem.calculate_power_score`, with the mindset draw
`mindset = random.uniform(0, 10)` passed explicitly:
`final_score = base_score * (1 + mindset / 20)`. -/
def calculate_power_score (e : Entity) (mindset : ℚ) : Option ℚ :=
  (base_power_score e).map (fun b => b * (1 + mindset / 20))

/-- The `rarity_ranges` dict of `RaidManager.generate_monsters`, in
insertion order: tier, min level, max level. -/
def rarity_ranges : List (String × ℕ × ℕ) :=
  [("E", 1, 10), ("D", 11, 20), ("C", 21, 30),
   ("B", 31, 40), ("A", 41, 50), ("S", 51, 60)]

/-- The tier-selection loop of `RaidManager.generate_monsters`:
`current_rarity` starts at `"E"` and the loop breaks at the first entry
whose `max_level` bound satisfies `tower_level <= max_level`; if no
entry matches, the initial `"E"` remains. -/
def determine_rarity (tower_level : ℕ) : String :=
  match rarity_ranges.find? (fun r => tower_level ≤ r.2.2) with
  | some r => r.1
  | none => "E"

/-- A monster template record as returned by the catalog query
(`monsters_collection.find`): the mandatory fields are read with
`monster_data["..."]`, the rest with `.get(..., default)`. -/
structure MonsterData where
  monster_id : String
  name : String
  level : ℕ
  monster_type : Option String
  base_hp : Option ℚ
  base_damage : Option ℚ
  base_defense : Option ℚ
  experience_reward : Option ℚ
  gold_reward : Option ℚ
  loot_table : Option (List String)
deriving DecidableEq

/-- The `Monster(...)` construction inside the selection loop of
`generate_monsters`: materialize a template at the selected rarity,
defaulting the optional fields. -/
def build_monster (current_rarity : String) (d : MonsterData) : Monster :=
  { monster_id := d.monster_id
    name := d.name
    level := d.level
    rarity := current_rarity
    monster_type := d.monster_type.getD "generic"
    hp := d.base_hp.getD 50
    damage := d.base_damage.getD 5
    defense := d.base_defense.getD 3
    experience_reward := d.experience_reward.getD 15
    gold_reward := d.gold_reward.getD 10
    loot_table := d.loot_table.getD [] }

/-- The Mongo query filter `{"monster_id": {"$regex": f"^{current_rarity}"}}`:
the id matches the anchored regex iff the tier string is a prefix of
the id's character sequence. -/
def matches_tier_regex (current_rarity : String) (monster_id : String) : Bool :=
  current_rarity.data.isPrefixOf monster_id.data

/-- The `potential_monsters` query of `RaidManager.generate_monsters`:
the catalog templates whose `monster_id` matches the regex
`^{current_rarity}`, i.e. starts with the selected tier letter. -/
def potential_monsters (catalog : List MonsterData) (tower_level : ℕ) :
    List MonsterData :=
  catalog.filter (fun d => matches_tier_regex (determine_rarity tower_level) d.monster_id)

/-- `RaidManager.generate_monsters`, with the catalog contents and the
random draws passed explicitly: `catalog` is the monster collection and
`sample` the index positions chosen by `random.sample`, whose length is
the draw `num_monsters = random.randint(3, min(len(potential_monsters), 7))`.
When `min(len(potential_monsters), 7) < 3` the call to `random.randint`
raises `ValueError`, modelled as `none`. -/
def generate_monsters (catalog : List MonsterData) (tower_level : ℕ)
    (sample : List ℕ) : Option (List Monster) :=
  let current_rarity := determine_rarity tower_level
  let candidates := potential_monsters catalog tower_level
  if min candidates.length 7 < 3 then
    none
  else
    let selected_monster_data := sample.filterMap (fun i => candidates[i]?)
    some (selected_monster_data.map (build_monster current_rarity))

/-- The dict returned by `RaidManager.process_battle`. -/
structure BattleResult where
  player_won : Bool
  damage_taken : ℚ
  rewards_gold : ℚ
  rewards_experience : ℚ
  monster_id : String
deriving DecidableEq

/-- `RaidManager.process_battle`, with the two mindset draws of the two
power-score calls passed explicitly; a `KeyError` from the player's
power score propagates as `none`. -/
def process_battle (player : Player) (monster : Monster)
    (mp mm : ℚ) : Option BattleResult := do
  let player_power ← calculate_power_score (.player player) mp
  let monster_power ← calculate_power_score (.monster monster) mm
  let player_wins : Bool := decide (monster_power < player_power)
  pure { player_won := player_wins
         damage_taken := if player_wins then 0 else monster.damage
         rewards_gold := if player_wins then monster.gold_reward else 0
         rewards_experience := if player_wins then monster.experience_reward else 0
         monster_id := monster.monster_id }

/-- The `raid_results` dict of `RaidManager.process_raid`. -/
structure RaidResult where
  monsters_defeated : List String
  monsters_defeated_by : List String
  total_gold : ℚ
  total_experience : ℚ
  battles : List BattleResult
  raid_complete : Bool
  player_survived : Bool
  damage_taken : ℚ
deriving DecidableEq

/-- The initial `raid_results` accumulator of `process_raid`. -/
def initial_raid_results : RaidResult :=
  { monsters_defeated := []
    monsters_defeated_by := []
    total_gold := 0
    total_experience := 0
    battles := []
    raid_complete := false
    player_survived := true
    damage_taken := 0 }

/-- The battle loop of `RaidManager.process_raid`: iterate over the
selected monsters; break with `player_survived = False` when the
player's current HP is already ≤ 0; otherwise resolve the battle with
the mindset draws `draws i`, record it, and on a win accumulate the
reward while on a loss record the killer, subtract the damage from the
player's HP and break.  Returns the accumulated results together with
the player's final state (lists are built head-first on the way back so
they appear in battle order). -/
def raid_loop (draws : ℕ → ℚ × ℚ) :
    List Monster → Player → ℕ → Option (RaidResult × Player)
  | [], player, _ => some (initial_raid_results, player)
  | monster :: rest, player, i =>
    if player.current_hp ≤ 0 then
      some ({ initial_raid_results with player_survived := false }, player)
    else
      match process_battle player monster (draws i).1 (draws i).2 with
      | none => none
      | some battle_result =>
        if battle_result.player_won then
          match raid_loop draws rest player (i + 1) with
          | none => none
          | some (r, p) =>
            some ({ r with
              battles := battle_result :: r.battles
              monsters_defeated := monster.monster_id :: r.monsters_defeated
              total_gold := battle_result.rewards_gold + r.total_gold
              total_experience :=
                battle_result.rewards_experience + r.total_experience }, p)
        else
          some ({ initial_raid_results with
            battles := [battle_result]
            monsters_defeated_by := [monster.monster_id]
            damage_taken := battle_result.damage_taken },
            { player with
              current_hp := player.current_hp - battle_result.damage_taken })

/-- `RaidManager.process_raid` from the point where the monster list is
in hand: run the battle loop, then set
`raid_complete = (len(monsters_defeated) == len(monsters))`. -/
def process_raid_with (player : Player) (monsters : List Monster)
    (draws : ℕ → ℚ × ℚ) : Option (RaidResult × Player) :=
  (raid_loop draws monsters player 0).map (fun rp =>
    ({ rp.1 with
       raid_complete := rp.1.monsters_defeated.length == monsters.length },
     rp.2))

/-- `RaidManager.process_raid` in full: generate the monsters from the
catalog, then resolve the raid.  The second component is the player's
state when the call returns or raises; an exception escaping
`generate_monsters` leaves the player untouched (no mutation precedes
the battle loop, and within the loop HP is mutated only in the loss
branch, which terminates the loop). -/
def process_raid (catalog : List MonsterData) (player : Player)
    (tower_level : ℕ) (sample : List ℕ)
    (draws : ℕ → ℚ × ℚ) : Option RaidResult × Player :=
  match generate_monsters catalog tower_level sample with
  | none => (none, player)
  | some monsters =>
    match process_raid_with player monsters draws with
    | none => (none, player)
    | some (r, p) => (some r, p)

/-- A `{"slot": ..., "item": ...}` record of the list returned by
`handle_player_death`. -/
structure DroppedItem where
  slot : String
  item : Item
deriving DecidableEq

/-- The `{"slot": slot, "item": item}` records collected by the drop
loop of `handle_player_death`: one record per occupied slot whose
per-slot draw (`random.random() < 0.3`, passed as `drop`) succeeds. -/
def death_dropped_items (drop : String → Bool)
    (equipment : List (String × Option Item)) : List DroppedItem :=
  equipment.filterMap (fun kv =>
    match kv.2 with
    | some item => if drop kv.1 then some ⟨kv.1, item⟩ else none
    | none => none)

/-- The equipment dict after the drop loop of `handle_player_death`:
each occupied slot whose draw succeeds is set to `None`
(`player.equipment[slot] = None`), every other slot is untouched. -/
def death_equipment (drop : String → Bool)
    (equipment : List (String × Option Item)) : List (String × Option Item) :=
  equipment.map (fun kv =>
    match kv.2 with
    | some _ => if drop kv.1 then (kv.1, (none : Option Item)) else kv
    | none => kv)

/-- `handle_player_death`, with the per-slot drop decision passed as
`drop`.  Each occupied slot whose draw succeeds is recorded and
cleared; gold is reduced by `gold_loss = int(player.gold * 0.2)`
(truncation of the exact product, `⌊gold * 2/10⌋`); current HP is
reset to `max_hp * 0.1` and the party reference cleared.  Returns the
dropped items and the mutated player. -/
def handle_player_death (drop : String → Bool) (player : Player) :
    List DroppedItem × Player :=
  let gold_loss := ⌊(player.gold : ℚ) * (2/10)⌋₊
  (death_dropped_items drop player.equipment,
   { player with
     equipment := death_equipment drop player.equipment
     gold := player.gold - gold_loss
     current_hp := player.max_hp * (1/10)
     current_party_id := none })

/-!
## Concrete entities used by witnesses and counterexamples
-/

/-- A fully populated example player. -/
def examplePlayer : Player :=
  { level := 3
    stats := [("strength", 4), ("agility", 2), ("vitality", 1)]
    equipment := [("head", some ⟨some 7⟩), ("hand", some ⟨none⟩), ("feet", none)]
    current_hp := 20
    max_hp := 30
    gold := 100
    experience := 0
    current_party_id := some "party1" }

/-- A player whose stats dict lacks the `"strength"` key. -/
def playerNoStrength : Player :=
  { examplePlayer with stats := [("agility", 2), ("vitality", 1)] }

/-- A weak example monster. -/
def exampleRat : Monster :=
  { monster_id := "E_rat"
    name := "rat"
    level := 1
    rarity := "E"
    monster_type := "generic"
    hp := 50
    damage := 5
    defense := 3
    experience_reward := 15
    gold_reward := 10
    loot_table := [] }

/-- A strong example monster. -/
def exampleDragon : Monster :=
  { exampleRat with
    monster_id := "S_dragon"
    name := "dragon"
    level := 60
    rarity := "S"
    damage := 40
    defense := 20
    experience_reward := 500
    gold_reward := 300 }

/-!
## C1 — tier mapping for progression levels
-/

/-- Full characterization of the tier-selection loop: the breakpoints
behave as documented up to level 60, but a level above 60 matches no
entry of `rarity_ranges`, so the loop leaves `current_rarity` at its
initial value `"E"`. -/
theorem determine_rarity_eq (lvl : ℕ) :
    determine_rarity lvl =
      if lvl ≤ 10 then "E"
      else if lvl ≤ 20 then "D"
      else if lvl ≤ 30 then "C"
      else if lvl ≤ 40 then "B"
      else if lvl ≤ 50 then "A"
      else if lvl ≤ 60 then "S"
      else "E" := by
  unfold determine_rarity rarity_ranges
  by_cases h1 : lvl ≤ 10 <;> by_cases h2 : lvl ≤ 20 <;> by_cases h3 : lvl ≤ 30 <;>
    by_cases h4 : lvl ≤ 40 <;> by_cases h5 : lvl ≤ 50 <;> by_cases h6 : lvl ≤ 60 <;>
    first
      | omega
      | simp [List.find?, h1, h2, h3, h4, h5, h6]

/-- C1 counterexample: progression level 61 does not select tier `"S"`;
the loop falls through every breakpoint and keeps the initial `"E"`. -/
theorem C1_level61_counterexample :
    determine_rarity 61 = "E" ∧ determine_rarity 61 ≠ "S" := by
  refine ⟨?_, ?_⟩ <;> simp [determine_rarity, rarity_ranges, List.find?]

/-- C1 (amended): the tier mapping resolves levels within the
breakpoints as E≤10, D≤20, C≤30, B≤40, A≤50, S≤60, but every
progression level above 60 resolves to the default tier `"E"` (the
loop's initializer), not to `"S"`. -/
theorem C1_tier_mapping_amended (lvl : ℕ) :
    (lvl ≤ 10 → determine_rarity lvl = "E") ∧
    (10 < lvl → lvl ≤ 20 → determine_rarity lvl = "D") ∧
    (20 < lvl → lvl ≤ 30 → determine_rarity lvl = "C") ∧
    (30 < lvl → lvl ≤ 40 → determine_rarity lvl = "B") ∧
    (40 < lvl → lvl ≤ 50 → determine_rarity lvl = "A") ∧
    (50 < lvl → lvl ≤ 60 → determine_rarity lvl = "S") ∧
    (60 < lvl → determine_rarity lvl = "E") := by
  rw [determine_rarity_eq]
  refine ⟨?_, ?_, ?_, ?_, ?_, ?_, ?_⟩ <;> intros <;> split_ifs <;> first | rfl | omega

/-!
## C2 — missing mandatory stat keys
-/

/-- C2 counterexample: for a concrete player whose stats dict lacks the
`"strength"` key, `calculate_power_score` does not return normally with
a zero contribution — the `entity.stats["strength"]` access raises
`KeyError` (modelled as `none`). -/
theorem C2_missing_stat_counterexample :
    calculate_power_score (.player playerNoStrength) 0 = none ∧
    dictGet playerNoStrength.stats "strength" = none := by
  refine ⟨?_, ?_⟩ <;>
    simp [calculate_power_score, base_power_score, dictGet, playerNoStrength,
      examplePlayer]

/-- C2 (amended): the power-score computation of a player entity
returns normally iff all three mandatory stat keys `"strength"`,
`"agility"` and `"vitality"` are present; a missing mandatory key makes
the dict access raise `KeyError` (`none`) instead of contributing
zero. -/
theorem C2_missing_stat_amended (p : Player) (mindset : ℚ) :
    (calculate_power_score (.player p) mindset).isSome ↔
      ((dictGet p.stats "strength").isSome ∧
       (dictGet p.stats "agility").isSome ∧
       (dictGet p.stats "vitality").isSome) := by
  simp only [calculate_power_score, Option.isSome_map]
  cases hs : dictGet p.stats "strength" <;>
    cases ha : dictGet p.stats "agility" <;>
    cases hv : dictGet p.stats "vitality" <;>
    simp [base_power_score, hs, ha, hv]

/-!
## C9 — the randomized mindset factor
-/

/-- C9: whenever the pre-mindset base score of an entity is `b` and the
mindset draw `m` lies in `[0, 10)`, the returned power score is exactly
`b * (1 + m/20)`, and for `b > 0` it lies in the half-open interval
`[b, 1.5*b)`. -/
theorem C9_mindset_range (e : Entity) (b m : ℚ)
    (hb : base_power_score e = some b) (h0 : 0 ≤ m) (h10 : m < 10) :
    calculate_power_score e m = some (b * (1 + m / 20)) ∧
      (0 < b → b ≤ b * (1 + m / 20) ∧ b * (1 + m / 20) < (3/2) * b) := by
  refine ⟨by simp [calculate_power_score, hb], fun hbpos => ⟨?_, ?_⟩⟩
  · nlinarith
  · nlinarith

/-- C9 witness: the rat monster has base score `31/2`, and with the
mindset draw `5` its power score is `31/2 * (1 + 5/20)`, inside
`[31/2, 3/2 * (31/2))`. -/
theorem C9_mindset_range_witness :
    base_power_score (.monster exampleRat) = some (31/2) ∧
      (calculate_power_score (.monster exampleRat) 5 = some ((31/2) * (1 + 5/20)) ∧
        (0 < (31/2 : ℚ) →
          (31/2 : ℚ) ≤ 31/2 * (1 + 5/20) ∧ (31/2 : ℚ) * (1 + 5/20) < 3/2 * (31/2))) := by
  have hb : base_power_score (.monster exampleRat) = some (31/2) := by
    norm_num [base_power_score, exampleRat, dictGet, rarity_multipliers]
  exact ⟨hb, C9_mindset_range (.monster exampleRat) (31/2) 5 hb (by norm_num) (by norm_num)⟩

/-!
## C4 — battle resolution
-/

/-- C4: whenever the two power-score calls return `ppow` and `mpow`,
`process_battle` returns a result whose `player_won` holds iff the
player's power strictly exceeds the monster's (a tie is a loss); a win
pays the monster's rewards with no damage, a loss pays nothing and
deals the monster's damage stat; `monster_id` is the monster's id. -/
theorem C4_process_battle_spec (player : Player) (monster : Monster)
    (mp mm ppow mpow : ℚ)
    (hp : calculate_power_score (.player player) mp = some ppow)
    (hm : calculate_power_score (.monster monster) mm = some mpow) :
    ∃ br, process_battle player monster mp mm = some br ∧
      (br.player_won = true ↔ mpow < ppow) ∧
      (br.player_won = true →
        br.rewards_gold = monster.gold_reward ∧
        br.rewards_experience = monster.experience_reward ∧
        br.damage_taken = 0) ∧
      (br.player_won = false →
        br.rewards_gold = 0 ∧
        br.rewards_experience = 0 ∧
        br.damage_taken = monster.damage) ∧
      br.monster_id = monster.monster_id := by
  have hpb : process_battle player monster mp mm = some
      { player_won := decide (mpow < ppow)
        damage_taken := if mpow < ppow then 0 else monster.damage
        rewards_gold := if mpow < ppow then monster.gold_reward else 0
        rewards_experience := if mpow < ppow then monster.experience_reward else 0
        monster_id := monster.monster_id } := by
    simp [process_battle, hp, hm]
  refine ⟨_, hpb, ?_, ?_, ?_, rfl⟩
  · simp
  · by_cases hw : mpow < ppow <;> simp [hw]
  · by_cases hw : mpow < ppow <;> simp [hw]

/-- C4 witness: the example player (power `157/5` at mindset 0) beats
the rat (power `31/2` at mindset 0) and the returned battle record pays
the rat's rewards with zero damage. -/
theorem C4_process_battle_spec_witness :
    calculate_power_score (.player examplePlayer) 0 = some (157/5) ∧
      ∃ br, process_battle examplePlayer exampleRat 0 0 = some br ∧
        (br.player_won = true ↔ (31/2 : ℚ) < 157/5) ∧
        (br.player_won = true →
          br.rewards_gold = exampleRat.gold_reward ∧
          br.rewards_experience = exampleRat.experience_reward ∧
          br.damage_taken = 0) ∧
        (br.player_won = false →
          br.rewards_gold = 0 ∧
          br.rewards_experience = 0 ∧
          br.damage_taken = exampleRat.damage) ∧
        br.monster_id = exampleRat.monster_id := by
  have hp : calculate_power_score (.player examplePlayer) 0 = some (157/5) := by
    simp only [calculate_power_score, base_power_score, examplePlayer, dictGet,
      String.reduceEq, reduceIte, Option.some_bind, Option.map_some]
    norm_num
  have hm : calculate_power_score (.monster exampleRat) 0 = some (31/2) := by
    norm_num [calculate_power_score, base_power_score, exampleRat, dictGet,
      rarity_multipliers]
  exact ⟨hp, C4_process_battle_spec examplePlayer exampleRat 0 0 (157/5) (31/2) hp hm⟩

/-!
## C5 — entering the raid at 0 HP
-/

/-- C5: a player whose current HP is ≤ 0 when the battle loop begins,
facing a non-empty monster selection, is marked not survived without
any battle being resolved: no battles, no defeats either way, zero
rewards, `raid_complete = false`, and the player state is returned
untouched. -/
theorem C5_zero_hp_no_battle (player : Player) (monster : Monster)
    (rest : List Monster) (draws : ℕ → ℚ × ℚ)
    (hhp : player.current_hp ≤ 0) :
    process_raid_with player (monster :: rest) draws = some
      ({ monsters_defeated := []
         monsters_defeated_by := []
         total_gold := 0
         total_experience := 0
         battles := []
         raid_complete := false
         player_survived := false
         damage_taken := 0 }, player) := by
  simp [process_raid_with, raid_loop, hhp, initial_raid_results]

/-- C5 witness: a concrete player at 0 HP facing one rat fights no
battle and is marked not survived. -/
theorem C5_zero_hp_no_battle_witness :
    process_raid_with { examplePlayer with current_hp := 0 } [exampleRat]
      (fun _ => (0, 0)) = some
      ({ monsters_defeated := []
         monsters_defeated_by := []
         total_gold := 0
         total_experience := 0
         battles := []
         raid_complete := false
         player_survived := false
         damage_taken := 0 }, { examplePlayer with current_hp := 0 }) :=
  C5_zero_hp_no_battle { examplePlayer with current_hp := 0 } exampleRat []
    (fun _ => (0, 0)) (by norm_num)

/-!
## The battle-loop invariant shared by C3 and C10
-/

/-- Invariant of the battle loop of `process_raid`, by induction over
the monster list: the defeated ids form a prefix of the selected ids
(in order), at most one monster defeats the player, every recorded
battle except possibly the last is a win, the final player state
differs from the initial one exactly by subtracting the accumulated
`damage_taken` from `current_hp`, the accumulated damage is zero when
every battle was won, and equals the damage of any lost battle. -/
theorem raid_loop_spec (draws : ℕ → ℚ × ℚ) :
    ∀ (monsters : List Monster) (player : Player) (i : ℕ) (r : RaidResult)
      (p' : Player),
      raid_loop draws monsters player i = some (r, p') →
      (∃ ids, monsters.map Monster.monster_id = r.monsters_defeated ++ ids) ∧
      r.monsters_defeated_by.length ≤ 1 ∧
      (∀ b ∈ r.battles.dropLast, b.player_won = true) ∧
      p' = { player with current_hp := player.current_hp - r.damage_taken } ∧
      ((∀ b ∈ r.battles, b.player_won = true) → r.damage_taken = 0) ∧
      (∀ b ∈ r.battles, b.player_won = false → r.damage_taken = b.damage_taken)
  | [], player, i, r, p', h => by
      simp only [raid_loop, Option.some.injEq, Prod.mk.injEq] at h
      obtain ⟨hr, hp'⟩ := h
      subst hr
      subst hp'
      refine ⟨⟨[], by simp [initial_raid_results]⟩, by simp [initial_raid_results],
        by simp [initial_raid_results], ?_, fun _ => by simp [initial_raid_results],
        by simp [initial_raid_results]⟩
      cases player
      simp [initial_raid_results]
  | monster :: rest, player, i, r, p', h => by
      rw [show raid_loop draws (monster :: rest) player i =
          (if player.current_hp ≤ 0 then
            some ({ initial_raid_results with player_survived := false }, player)
          else
            match process_battle player monster (draws i).1 (draws i).2 with
            | none => none
            | some battle_result =>
              if battle_result.player_won then
                match raid_loop draws rest player (i + 1) with
                | none => none
                | some (r, p) =>
                  some ({ r with
                    battles := battle_result :: r.battles
                    monsters_defeated := monster.monster_id :: r.monsters_defeated
                    total_gold := battle_result.rewards_gold + r.total_gold
                    total_experience :=
                      battle_result.rewards_experience + r.total_experience }, p)
              else
                some ({ initial_raid_results with
                  battles := [battle_result]
                  monsters_defeated_by := [monster.monster_id]
                  damage_taken := battle_result.damage_taken },
                  { player with
                    current_hp :=
                      player.current_hp - battle_result.damage_taken })) from rfl] at h
      by_cases hhp : player.current_hp ≤ 0
      · rw [if_pos hhp] at h
        simp only [Option.some.injEq, Prod.mk.injEq] at h
        obtain ⟨hr, hp'⟩ := h
        subst hr
        subst hp'
        refine ⟨⟨monster.monster_id :: rest.map Monster.monster_id,
          by simp [initial_raid_results]⟩, by simp [initial_raid_results],
          by simp [initial_raid_results], ?_, fun _ => by simp [initial_raid_results],
          by simp [initial_raid_results]⟩
        cases player
        simp [initial_raid_results]
      · rw [if_neg hhp] at h
        cases hb : process_battle player monster (draws i).1 (draws i).2 with
        | none => rw [hb] at h; exact absurd h (by simp)
        | some battle_result =>
          rw [hb] at h
          dsimp only at h
          by_cases hw : battle_result.player_won
          · rw [if_pos hw] at h
            cases hrec : raid_loop draws rest player (i + 1) with
            | none => rw [hrec] at h; exact absurd h (by simp)
            | some rp =>
              obtain ⟨r0, p0⟩ := rp
              rw [hrec] at h
              dsimp only at h
              simp only [Option.some.injEq, Prod.mk.injEq] at h
              obtain ⟨hr, hp'⟩ := h
              subst hr
              subst hp'
              obtain ⟨⟨ids, hids⟩, hlen, hbat, hframe, hallwin, hlost⟩ :=
                raid_loop_spec draws rest player (i + 1) r0 p0 hrec
              refine ⟨⟨ids, by simp [hids]⟩, by simpa using hlen, ?_, hframe, ?_, ?_⟩
              · cases hbt : r0.battles with
                | nil => simp [hbt]
                | cons b bs =>
                  intro b' hb'
                  rw [hbt] at hbat
                  simp only [hbt, List.dropLast_cons₂, List.mem_cons] at hb' ⊢
                  rcases hb' with h1 | h2
                  · subst h1; exact hw
                  · exact hbat b' h2
              · intro hall
                exact hallwin (fun b hbmem => hall b (List.mem_cons_of_mem _ hbmem))
              · intro b hbmem hbfalse
                rcases List.mem_cons.mp hbmem with h1 | h2
                · subst h1; exact absurd hbfalse (by simp [hw])
                · exact hlost b h2 hbfalse
          · rw [if_neg hw] at h
            simp only [Option.some.injEq, Prod.mk.injEq] at h
            obtain ⟨hr, hp'⟩ := h
            subst hr
            subst hp'
            refine ⟨⟨monster.monster_id :: rest.map Monster.monster_id,
              by simp [initial_raid_results]⟩, by simp [initial_raid_results],
              by simp [initial_raid_results], rfl, ?_, ?_⟩
            · intro hall
              exact absurd (hall battle_result (by simp [initial_raid_results])) hw
            · intro b hbmem _
              simp only [initial_raid_results] at hbmem
              simp only [List.mem_singleton] at hbmem
              subst hbmem
              rfl

/-!
## C3 — raid-result invariants
-/

/-- C3: in every result of the raid loop over monsters with pairwise
distinct ids (they are drawn from the catalog without replacement and
the catalog is keyed by id), `monsters_defeated_by` has at most one
entry, no battle after the first lost battle is resolved (every
recorded battle except possibly the last is a win), and
`raid_complete` holds iff every selected monster's id appears in
`monsters_defeated`. -/
theorem C3_raid_result_invariants (player : Player) (monsters : List Monster)
    (draws : ℕ → ℚ × ℚ) (r : RaidResult) (p' : Player)
    (hids : (monsters.map Monster.monster_id).Nodup)
    (h : process_raid_with player monsters draws = some (r, p')) :
    r.monsters_defeated_by.length ≤ 1 ∧
    (∀ b ∈ r.battles.dropLast, b.player_won = true) ∧
    (r.raid_complete = true ↔
      ∀ m ∈ monsters, m.monster_id ∈ r.monsters_defeated) := by
  unfold process_raid_with at h
  cases hrl : raid_loop draws monsters player 0 with
  | none => rw [hrl] at h; exact absurd h (by simp)
  | some rp =>
    obtain ⟨r0, p0⟩ := rp
    rw [hrl] at h
    simp only [Option.map_some', Option.some.injEq, Prod.mk.injEq] at h
    obtain ⟨hr, hp'⟩ := h
    subst hr
    subst hp'
    obtain ⟨⟨ids, hpre⟩, hlen, hbat, -, -, -⟩ :=
      raid_loop_spec draws monsters player 0 r0 p0 hrl
    refine ⟨hlen, hbat, ?_⟩
    simp only [beq_iff_eq]
    constructor
    · intro hcomplete m hm
      have hlens : r0.monsters_defeated.length + ids.length =
          r0.monsters_defeated.length := by
        have := congrArg List.length hpre
        simp only [List.length_map, List.length_append] at this
        omega
      have hids_nil : ids = [] := by
        have : ids.length = 0 := by omega
        exact List.eq_nil_of_length_eq_zero this
      subst hids_nil
      rw [List.append_nil] at hpre
      rw [← hpre]
      exact List.mem_map_of_mem Monster.monster_id hm
    · intro hall
      cases hids_case : ids with
      | nil =>
        subst hids_case
        rw [List.append_nil] at hpre
        rw [← hpre, List.length_map]
      | cons x xs =>
        subst hids_case
        exfalso
        have hx_mem : x ∈ monsters.map Monster.monster_id := by
          rw [hpre]
          exact List.mem_append_right _ (List.mem_cons_self x xs)
        obtain ⟨m0, hm0_mem, hm0_id⟩ := List.mem_map.mp hx_mem
        have hx_defeated : x ∈ r0.monsters_defeated := by
          rw [← hm0_id]
          exact hall m0 hm0_mem
        rw [hpre] at hids
        obtain ⟨-, -, hdisj⟩ := List.nodup_append.mp hids
        exact hdisj hx_defeated (List.mem_cons_self x xs)

/-- C3 witness: the example player wins against the rat, then loses to
the dragon; the invariants hold for the resulting raid record. -/
theorem C3_raid_result_invariants_witness :
    ∃ r p', process_raid_with examplePlayer [exampleRat, exampleDragon]
        (fun _ => (0, 0)) = some (r, p') ∧
      (r.monsters_defeated_by.length ≤ 1 ∧
        (∀ b ∈ r.battles.dropLast, b.player_won = true) ∧
        (r.raid_complete = true ↔
          ∀ m ∈ [exampleRat, exampleDragon], m.monster_id ∈ r.monsters_defeated)) := by
  have hraid : process_raid_with examplePlayer [exampleRat, exampleDragon]
      (fun _ => (0, 0)) = some
      ({ monsters_defeated := ["E_rat"]
         monsters_defeated_by := ["S_dragon"]
         total_gold := 10
         total_experience := 15
         battles :=
           [{ player_won := true, damage_taken := 0, rewards_gold := 10,
              rewards_experience := 15, monster_id := "E_rat" },
            { player_won := false, damage_taken := 40, rewards_gold := 0,
              rewards_experience := 0, monster_id := "S_dragon" }]
         raid_complete := false
         player_survived := true
         damage_taken := 40 }, { examplePlayer with current_hp := -20 }) := by
    simp only [process_raid_with, raid_loop, process_battle, calculate_power_score,
      base_power_score, examplePlayer, exampleRat, exampleDragon, dictGet,
      rarity_multipliers, String.reduceEq, reduceIte, Option.some_bind,
      Option.map_some', initial_raid_results]
    norm_num
  refine ⟨_, _, hraid, C3_raid_result_invariants examplePlayer
    [exampleRat, exampleDragon] (fun _ => (0, 0)) _ _ (by simp [exampleRat, exampleDragon]) hraid⟩

/-!
## C10 — frame condition of raid resolution
-/

/-- C10: raid resolution leaves every player field except `current_hp`
unchanged (gold, experience, stats, equipment, party membership, level
and max HP are those of the input player), and `current_hp` decreases
exactly by the accumulated `damage_taken`, which is zero when every
battle was won and equals the damage of the lost battle otherwise.
`process_battle` itself returns only a `BattleResult` and touches
neither combatant. -/
theorem C10_frame_condition (player : Player) (monsters : List Monster)
    (draws : ℕ → ℚ × ℚ) (r : RaidResult) (p' : Player)
    (h : process_raid_with player monsters draws = some (r, p')) :
    p' = { player with current_hp := player.current_hp - r.damage_taken } ∧
    ((∀ b ∈ r.battles, b.player_won = true) → r.damage_taken = 0 ∧ p' = player) ∧
    (∀ b ∈ r.battles, b.player_won = false → r.damage_taken = b.damage_taken) := by
  unfold process_raid_with at h
  cases hrl : raid_loop draws monsters player 0 with
  | none => rw [hrl] at h; exact absurd h (by simp)
  | some rp =>
    obtain ⟨r0, p0⟩ := rp
    rw [hrl] at h
    simp only [Option.map_some', Option.some.injEq, Prod.mk.injEq] at h
    obtain ⟨hr, hp'⟩ := h
    subst hr
    subst hp'
    obtain ⟨-, -, -, hframe, hallwin, hlost⟩ :=
      raid_loop_spec draws monsters player 0 r0 p0 hrl
    refine ⟨hframe, ?_, hlost⟩
    intro hall
    have hdz : r0.damage_taken = 0 := hallwin hall
    refine ⟨hdz, ?_⟩
    rw [hframe, hdz]
    cases player
    simp

/-- C10 witness: in the win-then-loss raid of the example player, the
final player state differs from the initial one only in `current_hp`,
by exactly the dragon's damage. -/
theorem C10_frame_condition_witness :
    ∃ r p', process_raid_with examplePlayer [exampleRat, exampleDragon]
        (fun _ => (0, 0)) = some (r, p') ∧
      (p' = { examplePlayer with
          current_hp := examplePlayer.current_hp - r.damage_taken } ∧
        ((∀ b ∈ r.battles, b.player_won = true) →
          r.damage_taken = 0 ∧ p' = examplePlayer) ∧
        (∀ b ∈ r.battles, b.player_won = false →
          r.damage_taken = b.damage_taken)) := by
  have hraid : process_raid_with examplePlayer [exampleRat, exampleDragon]
      (fun _ => (0, 0)) = some
      ({ monsters_defeated := ["E_rat"]
         monsters_defeated_by := ["S_dragon"]
         total_gold := 10
         total_experience := 15
         battles :=
           [{ player_won := true, damage_taken := 0, rewards_gold := 10,
              rewards_experience := 15, monster_id := "E_rat" },
            { player_won := false, damage_taken := 40, rewards_gold := 0,
              rewards_experience := 0, monster_id := "S_dragon" }]
         raid_complete := false
         player_survived := true
         damage_taken := 40 }, { examplePlayer with current_hp := -20 }) := by
    simp only [process_raid_with, raid_loop, process_battle, calculate_power_score,
      base_power_score, examplePlayer, exampleRat, exampleDragon, dictGet,
      rarity_multipliers, String.reduceEq, reduceIte, Option.some_bind,
      Option.map_some', initial_raid_results]
    norm_num
  exact ⟨_, _, hraid, C10_frame_condition examplePlayer
    [exampleRat, exampleDragon] (fun _ => (0, 0)) _ _ hraid⟩

/-!
## C6 — death penalties
-/

/-- The slot of every dropped-item record is a key of the equipment
dict it was collected from. -/
theorem death_dropped_slot_mem (drop : String → Bool) :
    ∀ (equipment : List (String × Option Item)) (d : DroppedItem),
      d ∈ death_dropped_items drop equipment → d.slot ∈ equipment.map Prod.fst
  | [], d, h => by simp [death_dropped_items] at h
  | kv :: rest, d, h => by
      simp only [death_dropped_items, List.filterMap_cons] at h
      simp only [List.map_cons, List.mem_cons]
      cases hkv : kv.2 with
      | none =>
        rw [hkv] at h
        dsimp only at h
        exact Or.inr (death_dropped_slot_mem drop rest d h)
      | some item =>
        rw [hkv] at h
        dsimp only at h
        by_cases hd : drop kv.1
        · rw [if_pos hd] at h
          rcases List.mem_cons.mp h with h1 | h2
          · subst h1; exact Or.inl rfl
          · exact Or.inr (death_dropped_slot_mem drop rest d h2)
        · rw [if_neg hd] at h
          exact Or.inr (death_dropped_slot_mem drop rest d h)

/-- After the drop loop, the slot of every dropped item reads as empty
(`None`), provided slot names are unique (they are dict keys). -/
theorem death_equipment_dropped_empty (drop : String → Bool) :
    ∀ (equipment : List (String × Option Item)),
      (equipment.map Prod.fst).Nodup →
      ∀ d ∈ death_dropped_items drop equipment,
        dictGet (death_equipment drop equipment) d.slot = some none
  | [], _, d, h => by simp [death_dropped_items] at h
  | kv :: rest, hk, d, h => by
      simp only [List.map_cons, List.nodup_cons] at hk
      obtain ⟨hknot, hkrest⟩ := hk
      simp only [death_dropped_items, List.filterMap_cons] at h
      simp only [death_equipment, List.map_cons]
      cases hkv : kv.2 with
      | none =>
        rw [hkv] at h
        dsimp only at h
        have hmem := death_dropped_slot_mem drop rest d h
        have hne : kv.1 ≠ d.slot := fun he => hknot (he ▸ hmem)
        simp only [hkv, dictGet, if_neg hne]
        exact death_equipment_dropped_empty drop rest hkrest d h
      | some item =>
        rw [hkv] at h
        dsimp only at h
        by_cases hd : drop kv.1
        · rw [if_pos hd] at h
          rcases List.mem_cons.mp h with h1 | h2
          · subst h1
            simp [hkv, hd, dictGet]
          · have hmem := death_dropped_slot_mem drop rest d h2
            have hne : kv.1 ≠ d.slot := fun he => hknot (he ▸ hmem)
            simp only [hkv, if_pos hd, dictGet, if_neg hne]
            exact death_equipment_dropped_empty drop rest hkrest d h2
        · rw [if_neg hd] at h
          have hmem := death_dropped_slot_mem drop rest d h
          have hne : kv.1 ≠ d.slot := fun he => hknot (he ▸ hmem)
          simp only [hkv, if_neg hd, dictGet, if_neg hne]
          exact death_equipment_dropped_empty drop rest hkrest d h

/-- A slot that appears in no dropped-item record reads the same after
the drop loop as before. -/
theorem death_equipment_kept (drop : String → Bool) :
    ∀ (equipment : List (String × Option Item)) (slot : String),
      slot ∉ (death_dropped_items drop equipment).map DroppedItem.slot →
      dictGet (death_equipment drop equipment) slot = dictGet equipment slot
  | [], slot, _ => by simp [death_equipment]
  | kv :: rest, slot, h => by
      simp only [death_dropped_items, List.filterMap_cons] at h
      simp only [death_equipment, List.map_cons]
      cases hkv : kv.2 with
      | none =>
        rw [hkv] at h
        dsimp only at h
        by_cases he : kv.1 = slot
        · simp only [hkv, dictGet, if_pos he]
        · simp only [hkv, dictGet, if_neg he]
          exact death_equipment_kept drop rest slot h
      | some item =>
        rw [hkv] at h
        dsimp only at h
        by_cases hd : drop kv.1
        · rw [if_pos hd] at h
          simp only [List.map_cons, List.mem_cons] at h
          push_neg at h
          obtain ⟨hne, hrest⟩ := h
          have hne' : kv.1 ≠ slot := fun he => hne he.symm
          simp only [hkv, if_pos hd, dictGet, if_neg hne']
          exact death_equipment_kept drop rest slot hrest
        · rw [if_neg hd] at h
          by_cases he : kv.1 = slot
          · simp only [hkv, if_neg hd, dictGet, if_pos he]
          · simp only [hkv, if_neg hd, dictGet, if_neg he]
            exact death_equipment_kept drop rest slot h

/-- `int(gold * 0.2)` for a natural amount of gold is `gold / 5`. -/
theorem death_gold_loss_eq (g : ℕ) : ⌊(g : ℚ) * (2/10)⌋₊ = g / 5 := by
  have h : (g : ℚ) * (2/10) = (g : ℚ) / ((5 : ℕ) : ℚ) := by push_cast; ring
  rw [h, Nat.floor_div_nat, Nat.floor_natCast]

/-- C6: `handle_player_death` reduces gold by exactly
`floor(gold * 0.2)` (so 100 becomes 80), resets current HP to one
tenth of max HP, clears the party reference, empties exactly the slots
named in the returned dropped-item list, and keeps the item of every
slot not named there. -/
theorem C6_death_penalties (player : Player) (drop : String → Bool)
    (hkeys : (player.equipment.map Prod.fst).Nodup) :
    (handle_player_death drop player).2.gold = player.gold - player.gold / 5 ∧
    (handle_player_death drop player).2.current_hp = player.max_hp * (1/10) ∧
    (handle_player_death drop player).2.current_party_id = none ∧
    (∀ d ∈ (handle_player_death drop player).1,
      dictGet (handle_player_death drop player).2.equipment d.slot = some none) ∧
    (∀ slot, slot ∉ (handle_player_death drop player).1.map DroppedItem.slot →
      dictGet (handle_player_death drop player).2.equipment slot =
        dictGet player.equipment slot) := by
  refine ⟨?_, rfl, rfl, ?_, ?_⟩
  · show player.gold - ⌊(player.gold : ℚ) * (2/10)⌋₊ = _
    rw [death_gold_loss_eq]
  · exact death_equipment_dropped_empty drop player.equipment hkeys
  · exact fun slot h => death_equipment_kept drop player.equipment slot h

/-- C6 witness: the example player (gold 100, occupied head and hand
slots, empty feet slot) dropping exactly the head item ends with gold
80, HP 3 (= 0.1 · 30), no party, an emptied head slot and untouched
hand and feet slots. -/
theorem C6_death_penalties_witness :
    (handle_player_death (fun s => s == "head") examplePlayer).2.gold =
        examplePlayer.gold - examplePlayer.gold / 5 ∧
    (handle_player_death (fun s => s == "head") examplePlayer).2.current_hp =
        examplePlayer.max_hp * (1/10) ∧
    (handle_player_death (fun s => s == "head") examplePlayer).2.current_party_id
        = none ∧
    (∀ d ∈ (handle_player_death (fun s => s == "head") examplePlayer).1,
      dictGet (handle_player_death (fun s => s == "head") examplePlayer).2.equipment
        d.slot = some none) ∧
    (∀ slot,
      slot ∉ (handle_player_death (fun s => s == "head")
          examplePlayer).1.map DroppedItem.slot →
      dictGet (handle_player_death (fun s => s == "head") examplePlayer).2.equipment
          slot = dictGet examplePlayer.equipment slot) :=
  C6_death_penalties examplePlayer (fun s => s == "head")
    (by simp [examplePlayer])

/-!
## C7 — monster selection
-/

/-- When every sampled index is in range, `random.sample` (modelled by
`filterMap` over index lookups) returns exactly one candidate per
index. -/
theorem sample_lookup_length (L : List MonsterData) :
    ∀ s : List ℕ, (∀ i ∈ s, i < L.length) →
      (s.filterMap (fun i => L[i]?)).length = s.length
  | [], _ => rfl
  | i :: rest, h => by
      have hi : i < L.length := h i (List.mem_cons_self i rest)
      rw [List.filterMap_cons, List.getElem?_eq_getElem hi]
      dsimp only
      rw [List.length_cons, List.length_cons,
        sample_lookup_length L rest (fun j hj => h j (List.mem_cons_of_mem _ hj))]

/-- Every template delivered by the sampled index lookups sits at one
of the sampled positions of the candidate list. -/
theorem sample_lookup_mem (L : List MonsterData) :
    ∀ (s : List ℕ) (d : MonsterData), d ∈ s.filterMap (fun i => L[i]?) →
      ∃ j, j ∈ s ∧ ∃ hj : j < L.length, L[j] = d
  | [], d, h => by simp at h
  | i :: rest, d, h => by
      rw [List.filterMap_cons] at h
      cases hget : L[i]? with
      | none =>
        rw [hget] at h
        dsimp only at h
        obtain ⟨j, hj, hjl, hjd⟩ := sample_lookup_mem L rest d h
        exact ⟨j, List.mem_cons_of_mem _ hj, hjl, hjd⟩
      | some d0 =>
        rw [hget] at h
        dsimp only at h
        rcases List.mem_cons.mp h with h1 | h2
        · subst h1
          obtain ⟨hlt, hval⟩ := List.getElem?_eq_some.mp hget
          exact ⟨i, List.mem_cons_self i rest, hlt, hval⟩
        · obtain ⟨j, hj, hjl, hjd⟩ := sample_lookup_mem L rest d h2
          exact ⟨j, List.mem_cons_of_mem _ hj, hjl, hjd⟩

/-- Distinct in-range indices into a candidate list with pairwise
distinct ids deliver templates with pairwise distinct ids. -/
theorem sample_lookup_nodup (L : List MonsterData)
    (hidL : (L.map MonsterData.monster_id).Nodup) :
    ∀ s : List ℕ, s.Nodup → (∀ i ∈ s, i < L.length) →
      ((s.filterMap (fun i => L[i]?)).map MonsterData.monster_id).Nodup
  | [], _, _ => by simp
  | i :: rest, hnd, h => by
      have hi : i < L.length := h i (List.mem_cons_self i rest)
      have hrest : ∀ j ∈ rest, j < L.length :=
        fun j hj => h j (List.mem_cons_of_mem _ hj)
      obtain ⟨hinot, hndrest⟩ := List.nodup_cons.mp hnd
      rw [List.filterMap_cons, List.getElem?_eq_getElem hi]
      dsimp only
      rw [List.map_cons, List.nodup_cons]
      refine ⟨?_, sample_lookup_nodup L hidL rest hndrest hrest⟩
      intro hmem
      obtain ⟨d, hd_mem, hd_id⟩ := List.mem_map.mp hmem
      obtain ⟨j, hj_mem, hj_lt, hj_val⟩ := sample_lookup_mem L rest d hd_mem
      have hij : i ≠ j := fun he => hinot (he ▸ hj_mem)
      have hmapi : i < (L.map MonsterData.monster_id).length := by
        rw [List.length_map]; exact hi
      have hmapj : j < (L.map MonsterData.monster_id).length := by
        rw [List.length_map]; exact hj_lt
      have hid_eq : (L.map MonsterData.monster_id)[i] =
          (L.map MonsterData.monster_id)[j] := by
        rw [List.getElem_map, List.getElem_map, hj_val, hd_id]
      exact hij (hidL.getElem_inj_iff.mp hid_eq)

/-- C7: with at least 3 candidates for the selected tier, a sample of
distinct in-range index positions whose length is a valid
`randint(3, min(count, 7))` draw, and a catalog keyed by distinct ids,
`generate_monsters` succeeds and returns between 3 and
`min(7, candidate_count)` monsters with pairwise distinct ids, every
one carrying the selected tier as its rarity. -/
theorem C7_selection_spec (catalog : List MonsterData) (tower_level : ℕ)
    (sample : List ℕ)
    (hcount : 3 ≤ (potential_monsters catalog tower_level).length)
    (hlen3 : 3 ≤ sample.length)
    (hlen7 : sample.length ≤ min (potential_monsters catalog tower_level).length 7)
    (hnd : sample.Nodup)
    (hrange : ∀ i ∈ sample, i < (potential_monsters catalog tower_level).length)
    (hids : ((potential_monsters catalog tower_level).map
        MonsterData.monster_id).Nodup) :
    ∃ ms, generate_monsters catalog tower_level sample = some ms ∧
      3 ≤ ms.length ∧
      ms.length ≤ min 7 (potential_monsters catalog tower_level).length ∧
      (ms.map Monster.monster_id).Nodup ∧
      ∀ m ∈ ms, m.rarity = determine_rarity tower_level := by
  have hguard : ¬ min (potential_monsters catalog tower_level).length 7 < 3 := by
    omega
  refine ⟨(sample.filterMap
      (fun i => (potential_monsters catalog tower_level)[i]?)).map
      (build_monster (determine_rarity tower_level)), ?_, ?_, ?_, ?_, ?_⟩
  · simp only [generate_monsters]
    rw [if_neg hguard]
  · rw [List.length_map, sample_lookup_length _ sample hrange]
    exact hlen3
  · rw [List.length_map, sample_lookup_length _ sample hrange]
    omega
  · have hsel := sample_lookup_nodup (potential_monsters catalog tower_level)
      hids sample hnd hrange
    have hcomp : (((sample.filterMap
          (fun i => (potential_monsters catalog tower_level)[i]?)).map
        (build_monster (determine_rarity tower_level))).map Monster.monster_id) =
        ((sample.filterMap
          (fun i => (potential_monsters catalog tower_level)[i]?)).map
        MonsterData.monster_id) := by
      rw [List.map_map]
      rfl
    rw [hcomp]
    exact hsel
  · intro m hm
    obtain ⟨d, -, hd⟩ := List.mem_map.mp hm
    rw [← hd]
    rfl

/-- A concrete catalog with three E-tier templates and one D-tier
template. -/
def exampleCatalog : List MonsterData :=
  [{ monster_id := "E_rat", name := "rat", level := 1, monster_type := none,
     base_hp := none, base_damage := none, base_defense := none,
     experience_reward := none, gold_reward := none, loot_table := none },
   { monster_id := "E_bat", name := "bat", level := 2, monster_type := some "flying",
     base_hp := some 40, base_damage := some 6, base_defense := none,
     experience_reward := none, gold_reward := some 12, loot_table := none },
   { monster_id := "E_cat", name := "cat", level := 3, monster_type := none,
     base_hp := none, base_damage := none, base_defense := none,
     experience_reward := none, gold_reward := none, loot_table := none },
   { monster_id := "D_dog", name := "dog", level := 12, monster_type := none,
     base_hp := none, base_damage := none, base_defense := none,
     experience_reward := none, gold_reward := none, loot_table := none }]

/-- C7 witness: at tower level 5 the example catalog has the three
E-tier candidates, and the sample `[2, 0, 1]` yields three distinct
E-rarity monsters. -/
theorem C7_selection_spec_witness :
    ∃ ms, generate_monsters exampleCatalog 5 [2, 0, 1] = some ms ∧
      3 ≤ ms.length ∧
      ms.length ≤ min 7 (potential_monsters exampleCatalog 5).length ∧
      (ms.map Monster.monster_id).Nodup ∧
      ∀ m ∈ ms, m.rarity = determine_rarity 5 :=
  C7_selection_spec exampleCatalog 5 [2, 0, 1]
    (by decide) (by decide) (by decide) (by decide) (by decide) (by decide)

/-!
## C8 — empty catalog query
-/

/-- C8: when the catalog query for the selected tier returns no
candidate, monster generation fails as a whole (`random.randint(3, 0)`
raises `ValueError`) instead of returning an empty or partial list, and
`process_raid` propagates the failure with the player state untouched
(no mutation precedes monster generation). -/
theorem C8_empty_candidates_fail (catalog : List MonsterData) (player : Player)
    (tower_level : ℕ) (sample : List ℕ) (draws : ℕ → ℚ × ℚ)
    (hempty : potential_monsters catalog tower_level = []) :
    generate_monsters catalog tower_level sample = none ∧
    process_raid catalog player tower_level sample draws = (none, player) := by
  have hgen : generate_monsters catalog tower_level sample = none := by
    simp [generate_monsters, hempty]
  exact ⟨hgen, by simp [process_raid, hgen]⟩

/-- A catalog holding only a D-tier template. -/
def exampleCatalogOnlyD : List MonsterData :=
  [{ monster_id := "D_dog", name := "dog", level := 12, monster_type := none,
     base_hp := none, base_damage := none, base_defense := none,
     experience_reward := none, gold_reward := none, loot_table := none }]

/-- C8 witness: a catalog holding only a D-tier template has no
candidate at tower level 5 (tier `"E"`), so generation and the raid
fail with the example player unchanged. -/
theorem C8_empty_candidates_fail_witness :
    generate_monsters exampleCatalogOnlyD 5 [0] = none ∧
    process_raid exampleCatalogOnlyD examplePlayer 5 [0] (fun _ => (0, 0)) =
      (none, examplePlayer) :=
  C8_empty_candidates_fail exampleCatalogOnlyD examplePlayer 5 [0]
    (fun _ => (0, 0)) (by decide)

/-- C1 amended-claim witness: level 25 (inside the C band) maps to
`"C"`, and level 61 (above every breakpoint) maps to `"E"`. -/
theorem C1_tier_mapping_amended_witness :
    determine_rarity 25 = "C" ∧ determine_rarity 61 = "E" :=
  ⟨(C1_tier_mapping_amended 25).2.2.1 (by norm_num) (by norm_num),
   (C1_tier_mapping_amended 61).2.2.2.2.2.2 (by norm_num)⟩
